import Mathlib

/-!
# Verification of the chronos-calendar offline-first sync core

A shallow embedding of the offline-first synchronization and local cache
engine of the chronos-calendar repository:

* `src/services/calendarDb.ts` — the Local Cache Store (event table keyed by
  `[calendarId+id]`, SyncMeta watermarks, pending-mutation queue, calendar
  list singleton);
* `src/services/syncService.ts` — the Sync Orchestrator (cached reads,
  incremental sync, mutation flush, online/offline write paths);
* `calendarService.ts` — the Google Calendar API client (event mapping and
  request-error behaviour).

The IndexedDB tables are modelled as Lean lists of rows; each Dexie `put`,
`delete` or `filter` is translated to the corresponding list operation on
the table's primary key.  Asynchronous remote calls are modelled by
`Except String` valued parameters: `.ok` is a resolved promise, `.error`
a rejected one, mirroring the `try`/`catch` structure of the source.
JavaScript timestamps (`Date.now()` milliseconds) are `Int`, and
`Date.toISOString` is an abstract parameter `toIso : Int → String` where a
concrete rendering is not needed.
-/

/-- JavaScript `<` on strings: lexicographic comparison of the character
sequences (code units), as the `<` operator behaves on the ISO strings that
the cache compares. -/
def charListLt : List Char → List Char → Bool
  | [], [] => false
  | [], _ :: _ => true
  | _ :: _, [] => false
  | a :: as, b :: bs => if a < b then true else if b < a then false else charListLt as bs

/-- JavaScript `a < b` for strings. -/
def jsLt (a b : String) : Bool := charListLt a.toList b.toList

/-- JavaScript `a <= b` for strings, which the language defines as `¬(b < a)`. -/
def jsLe (a b : String) : Bool := !(jsLt b a)

/-- JavaScript `a >= b` for strings, which the language defines as `¬(a < b)`. -/
def jsGe (a b : String) : Bool := !(jsLt a b)

/-- A `start`/`end` field of a calendar event: `{ dateTime?: string; date?: string }`. -/
structure EventDateTime where
  dateTime : Option String := none
  date : Option String := none
deriving DecidableEq

/-- `CalendarEventAttendee` from `calendarService.ts`. -/
structure CalendarEventAttendee where
  email : String
  displayName : Option String := none
  responseStatus : Option String := none
deriving DecidableEq

/-- `CalendarEvent` from `calendarService.ts`. -/
structure CalendarEvent where
  id : String
  summary : String
  start : EventDateTime
  «end» : EventDateTime
  attendees : Option (List CalendarEventAttendee) := none
  calendarId : String
  color : Option String := none
deriving DecidableEq

/-- `CalendarAccount` from `calendarService.ts`. -/
structure CalendarAccount where
  id : String
  summary : String
  backgroundColor : Option String
  accessRole : String
deriving DecidableEq

/-- `CachedEvent` row of the `events` table in `calendarDb.ts` (primary key
`[calendarId+id]`). -/
structure CachedEvent where
  id : String
  calendarId : String
  event : CalendarEvent
  /-- ISO start (date or dateTime) for range queries and pruning. -/
  startIso : String
  /-- ISO end for pruning. -/
  endIso : String
  cachedAt : Int
deriving DecidableEq

/-- `SyncMeta` row: per-calendar watermark. -/
structure SyncMeta where
  calendarId : String
  lastSyncAt : String
deriving DecidableEq

/-- `PendingMutationType` from `calendarDb.ts`. -/
inductive PendingMutationType where
  | create
  | update
  | delete
deriving DecidableEq

/-- `NewEventInput` from `calendarStore.ts` (the payload of a create mutation). -/
structure NewEventInput where
  summary : String
  start : EventDateTime
  «end» : EventDateTime
  description : Option String := none
  attendees : Option (List String) := none
deriving DecidableEq

/-- `UpdateEventPatch` from `calendarStore.ts` (the payload of an update mutation). -/
structure UpdateEventPatch where
  summary : Option String := none
  start : Option EventDateTime := none
  «end» : Option EventDateTime := none
  description : Option String := none
  attendees : Option (List String) := none
deriving DecidableEq

/-- The `payload: unknown` field of a pending mutation.  The source stores a
`NewEventInput` for creates, an `UpdateEventPatch` for updates and `{}` for
deletes, and casts back when flushing. -/
inductive MutationPayload where
  | createInput (input : NewEventInput)
  | updatePatch (patch : UpdateEventPatch)
  | empty
deriving DecidableEq

/-- `PendingMutation` row of the `pendingMutations` table (auto-increment
primary key `id`, secondary index `createdAt`). -/
structure PendingMutation where
  id : Option Nat
  type : PendingMutationType
  calendarId : String
  eventId : Option String
  tempEventId : Option String := none
  payload : MutationPayload
  createdAt : Int
deriving DecidableEq

/-- `CachedCalendarList` singleton row. -/
structure CachedCalendarList where
  calendars : List CalendarAccount
  cachedAt : Int
deriving DecidableEq

/-- The persisted `ChronosDB` state: the four Dexie tables as lists of rows. -/
structure DbState where
  events : List CachedEvent
  syncMeta : List SyncMeta
  pendingMutations : List PendingMutation
  calendarList : Option CachedCalendarList
deriving DecidableEq

/-- `eventStartIso` from `calendarDb.ts`: `ev.start.dateTime ?? ev.start.date ?? ''`. -/
def eventStartIso (ev : CalendarEvent) : String :=
  ev.start.dateTime.getD (ev.start.date.getD "")

/-- `eventEndIso` from `calendarDb.ts`: `ev.end.dateTime ?? ev.end.date ?? ''`. -/
def eventEndIso (ev : CalendarEvent) : String :=
  ev.«end».dateTime.getD (ev.«end».date.getD "")

/-- The `CachedEvent` row that `putCachedEvents`/`applyCachedEvent` build for
one `CalendarEvent`. -/
def mkCachedEvent (calendarId : String) (event : CalendarEvent) (now : Int) : CachedEvent :=
  { id := event.id
    calendarId
    event
    startIso := eventStartIso event
    endIso := eventEndIso event
    cachedAt := now }

/-- Membership test for the composite primary key `[calendarId+id]`. -/
def keyPred (calendarId id : String) (r : CachedEvent) : Bool :=
  decide (r.calendarId = calendarId ∧ r.id = id)

/-- Dexie `db.events.delete([calendarId, id])`: drop the row with that
composite primary key. -/
def eraseEventRow (rows : List CachedEvent) (calendarId id : String) : List CachedEvent :=
  rows.filter (fun r => !keyPred calendarId id r)

/-- Dexie `db.events.put(r)`: upsert by the composite primary key. -/
def putEventRow (rows : List CachedEvent) (r : CachedEvent) : List CachedEvent :=
  eraseEventRow rows r.calendarId r.id ++ [r]

/-- `putCachedEvents` from `calendarDb.ts`: map each event to a row and `put`
them all (one transaction, row by row). -/
def putCachedEvents (rows : List CachedEvent) (calendarId : String)
    (events : List CalendarEvent) (now : Int) : List CachedEvent :=
  events.foldl (fun acc event => putEventRow acc (mkCachedEvent calendarId event now)) rows

/-- `applyCachedEvent` from `calendarDb.ts`: single-row upsert. -/
def applyCachedEvent (rows : List CachedEvent) (calendarId : String)
    (event : CalendarEvent) (now : Int) : List CachedEvent :=
  putEventRow rows (mkCachedEvent calendarId event now)

/-- `removeCachedEvent` from `calendarDb.ts`: single-row delete by key. -/
def removeCachedEvent (rows : List CachedEvent) (calendarId eventId : String) : List CachedEvent :=
  eraseEventRow rows calendarId eventId

/-- `getCachedEventsInRange` from `calendarDb.ts`: for each requested calendar,
take the rows of that calendar (`where('calendarId').equals(...)`), keep those
with `startIso <= rangeEnd && endIso >= rangeStart`, and collect the event
payloads. -/
def getCachedEventsInRange (rows : List CachedEvent) (calendarIds : List String)
    (rangeStart rangeEnd : String) : List CalendarEvent :=
  calendarIds.flatMap (fun calendarId =>
    ((rows.filter (fun c => decide (c.calendarId = calendarId))).filter
        (fun c => jsLe c.startIso rangeEnd && jsGe c.endIso rangeStart)).map
      (fun r => r.event))

/-- `THREE_MONTHS_MS = 3 * 30 * 24 * 60 * 60 * 1000` (both `syncService.ts`
and `calendarDb.ts` define it). -/
def THREE_MONTHS_MS : Int := 3 * 30 * 24 * 60 * 60 * 1000

/-- `pruneEventsOutsideWindow` from `calendarDb.ts`: delete every row whose
`startIso` is `below` the ISO rendering of `now - 45d` or `above` that of
`now + 45d`.  `toIso` abstracts `new Date(t).toISOString()`. -/
def pruneEventsOutsideWindow (toIso : Int → String) (now : Int)
    (rows : List CachedEvent) : List CachedEvent :=
  let start := toIso (now - THREE_MONTHS_MS / 2)
  let stop := toIso (now + THREE_MONTHS_MS / 2)
  rows.filter (fun e => !(jsLt e.startIso start || jsLt stop e.startIso))

/-- `setSyncMeta` from `calendarDb.ts`: upsert by `calendarId`. -/
def setSyncMeta (metas : List SyncMeta) (calendarId lastSyncAt : String) : List SyncMeta :=
  metas.filter (fun m => decide (m.calendarId ≠ calendarId)) ++
    [({ calendarId, lastSyncAt } : SyncMeta)]

/-- `getSyncMeta`/`getAllSyncMeta().get` from `calendarDb.ts`: look up one
calendar's watermark. -/
def getSyncMeta (metas : List SyncMeta) (calendarId : String) : Option String :=
  (metas.find? (fun m => decide (m.calendarId = calendarId))).map (fun m => m.lastSyncAt)

/-- `addPendingMutation` from `calendarDb.ts`: `add` with the table's
auto-increment id (`nextId`) and `createdAt = Date.now()`. -/
def addPendingMutation (queue : List PendingMutation) (nextId : Nat) (now : Int)
    (type : PendingMutationType) (calendarId : String) (eventId : Option String)
    (tempEventId : Option String) (payload : MutationPayload) : List PendingMutation :=
  queue ++ [({ id := some nextId, type, calendarId, eventId, tempEventId, payload,
               createdAt := now } : PendingMutation)]

/-- Dexie's `orderBy('createdAt')` ordering: by the `createdAt` index, with
ties broken by the primary key. -/
abbrev mutLE (a b : PendingMutation) : Prop :=
  a.createdAt < b.createdAt ∨ (a.createdAt = b.createdAt ∧ a.id.getD 0 ≤ b.id.getD 0)

/-- `getPendingMutations` from `calendarDb.ts`:
`db.pendingMutations.orderBy('createdAt').toArray()` — the table rows sorted
by the `createdAt` index (ties by primary key). -/
def getPendingMutations (queue : List PendingMutation) : List PendingMutation :=
  List.insertionSort mutLE queue

/-- `removePendingMutation` from `calendarDb.ts`: delete the row with primary
key `id`. -/
def removePendingMutation (queue : List PendingMutation) (id : Nat) : List PendingMutation :=
  queue.filter (fun m => decide (m.id ≠ some id))

/-- A raw attendee object of the events-list response. -/
structure RawAttendee where
  email : Option String := none
  displayName : Option String := none
  responseStatus : Option String := none
deriving DecidableEq

/-- A raw item of the Google events-list response.  The client's
`EventsListResponse` type only declares `id`, `summary`, `start`, `end` and
`attendees`; the wire object also carries a `status` field (`"cancelled"` for
a deleted event reported under `showDeleted`), which the client's mapping
never reads. -/
structure RawEventItem where
  id : String
  summary : Option String := none
  start : Option EventDateTime := none
  «end» : Option EventDateTime := none
  attendees : Option (List RawAttendee) := none
  status : Option String := none
deriving DecidableEq

/-- `mapEventItem` from `calendarService.ts`: defaults for missing fields
(`start`/`end` default to `{ date: '' }`). -/
def mapEventItem (raw : RawEventItem) (calendarId : String)
    (color : Option String := none) : CalendarEvent :=
  { id := raw.id
    summary := raw.summary.getD ""
    start := raw.start.getD { date := some "" }
    «end» := raw.«end».getD { date := some "" }
    attendees := some ((raw.attendees.getD []).map (fun a =>
      { email := a.email.getD ""
        displayName := a.displayName
        responseStatus := a.responseStatus }))
    calendarId
    color }

/-- `res.ok` of the Fetch API: status in the range 200–299. -/
def httpOk (status : Nat) : Bool := 200 ≤ status && status ≤ 299

/-- The error message `apiRequest` in `calendarService.ts` throws for a
non-ok response whose body is not JSON with an `error.message`. -/
def apiRequestErrorMessage (status : Nat) (statusText : String) : String :=
  "Calendar API error: " ++ toString status ++ " " ++ statusText

/-- `deleteEvent` from `calendarService.ts` at the `apiRequest` level: the
DELETE resolves only for an ok status; every non-ok status — including
404 Not Found — throws.  (204 returns `undefined`, i.e. `()`.) -/
def apiDeleteEventResponse (status : Nat) (statusText : String) : Except String Unit :=
  if httpOk status then Except.ok () else Except.error (apiRequestErrorMessage status statusText)

/-- `GetEventsOptions` from `calendarService.ts` (the fields the sync engine
sets; `calendarColors`/`omitOrderBy` only shape the request). -/
structure GetEventsOptions where
  updatedMin : Option String := none
  showDeleted : Bool := false
deriving DecidableEq

/-- `DateRange` from `calendarService.ts`. -/
structure DateRange where
  start : String
  «end» : String
deriving DecidableEq

/-- `getEvents` from `calendarService.ts` for a single calendar: fetch the raw
items (pages concatenated; `fetchRaw` models the settled outcome of the
paginated `apiRequest`s for the given query) and map each through
`mapEventItem`. -/
def getEventsForCalendar
    (fetchRaw : String → DateRange → GetEventsOptions → Except String (List RawEventItem))
    (color : String → Option String)
    (calendarId : String) (dateRange : DateRange) (options : GetEventsOptions) :
    Except String (List CalendarEvent) :=
  (fetchRaw calendarId dateRange options).map
    (fun items => items.map (fun item => mapEventItem item calendarId (color calendarId)))

/-- `SyncStatus` from `syncService.ts`. -/
inductive SyncStatus where
  | idle
  | syncing
  | error
  | offline
deriving DecidableEq

/-- The module-level in-memory sync state of `syncService.ts` (the listener
set and interval id, which only drive notifications and scheduling, are not
modelled). -/
structure SyncStateM where
  status : SyncStatus
  lastSyncAt : Option Int
  lastError : Option String
  cacheTimestamp : Option Int
deriving DecidableEq

/-- The remote mutation endpoints as the flush and write paths see them:
each call either resolves with the server's authoritative value or rejects
with an error message.  The payload is handed over exactly as stored in the
queue (the source's `mut.payload as NewEventInput` cast is an identity at
runtime). -/
structure RemoteApi where
  createEvent : String → MutationPayload → Except String CalendarEvent
  updateEvent : String → String → MutationPayload → Except String CalendarEvent
  deleteEvent : String → String → Except String Unit

/-- The body of the `try` block of `flushPendingMutations` for one mutation:
returns the event table after the attempt and whether the attempt succeeded
(reached the end of the `try` block).  Effects performed before a rejected
remote call — the optimistic temp-row removal of a create — persist, exactly
as the already-awaited IndexedDB writes do in the source. -/
def flushOne (api : RemoteApi) (now : Int) (events : List CachedEvent)
    (m : PendingMutation) : List CachedEvent × Bool :=
  match m.type with
  | .create =>
    let events1 :=
      match m.tempEventId with
      | some tid => removeCachedEvent events m.calendarId tid
      | none => events
    match api.createEvent m.calendarId m.payload with
    | .ok created => (applyCachedEvent events1 m.calendarId created now, true)
    | .error _ => (events1, false)
  | .update =>
    match m.eventId with
    | some eid =>
      match api.updateEvent m.calendarId eid m.payload with
      | .ok updated => (applyCachedEvent events m.calendarId updated now, true)
      | .error _ => (events, false)
    | none => (events, true)
  | .delete =>
    match m.eventId with
    | some eid =>
      match api.deleteEvent m.calendarId eid with
      | .ok _ => (removeCachedEvent events m.calendarId eid, true)
      | .error _ => (events, false)
    | none => (events, true)

/-- Whether the remote call of `flushOne` for this mutation succeeds; it
depends only on the mutation and the remote outcomes, not on the cache. -/
def mutationSucceeds (api : RemoteApi) (m : PendingMutation) : Bool :=
  match m.type with
  | .create => (api.createEvent m.calendarId m.payload).isOk
  | .update =>
    match m.eventId with
    | some eid => (api.updateEvent m.calendarId eid m.payload).isOk
    | none => true
  | .delete =>
    match m.eventId with
    | some eid => (api.deleteEvent m.calendarId eid).isOk
    | none => true

/-- One iteration of the `for (const mut of pending)` loop of
`flushPendingMutations`: run the try body, and on success dequeue the
mutation (`if (mut.id != null) removePendingMutation(mut.id)`); on failure
the catch block keeps it in the queue. -/
def flushStep (api : RemoteApi) (now : Int)
    (acc : DbState × List (PendingMutation × Bool)) (m : PendingMutation) :
    DbState × List (PendingMutation × Bool) :=
  let (events1, ok) := flushOne api now acc.1.events m
  let queue1 :=
    if ok then
      match m.id with
      | some i => removePendingMutation acc.1.pendingMutations i
      | none => acc.1.pendingMutations
    else acc.1.pendingMutations
  ({ acc.1 with events := events1, pendingMutations := queue1 }, acc.2 ++ [(m, ok)])

/-- `flushPendingMutations` from `syncService.ts`: read the queue ordered by
`createdAt`, then attempt each mutation in that order.  Besides the final
state, the model returns the trace of attempts of the loop (each attempted
mutation, in iteration order, with the outcome of its remote call). -/
def flushPendingMutations (api : RemoteApi) (now : Int) (db : DbState) :
    DbState × List (PendingMutation × Bool) :=
  let pending := getPendingMutations db.pendingMutations
  pending.foldl (flushStep api now) (db, [])

/-- The fetch window of `runIncrementalSync`: ISO strings for
`now ∓ THREE_MONTHS_MS / 2`. -/
def syncDateRange (toIso : Int → String) (now : Int) : DateRange :=
  { start := toIso (now - THREE_MONTHS_MS / 2)
    «end» := toIso (now + THREE_MONTHS_MS / 2) }

/-- The `GetEventsOptions` built for one calendar in `runIncrementalSync`:
`{ ...(updatedMin && { updatedMin, showDeleted: true }) }`, where `updatedMin`
is the calendar's watermark in the meta map read before the loop. -/
def optionsForCalendar (meta0 : List SyncMeta) (calendarId : String) : GetEventsOptions :=
  match getSyncMeta meta0 calendarId with
  | some updatedMin => { updatedMin := some updatedMin, showDeleted := true }
  | none => {}

/-- The `for (const calendarId of calendarIds)` loop inside the `try` of
`runIncrementalSync`: fetch each calendar in turn (with options derived from
the meta snapshot `meta0`), merge the events, advance the watermark to
`nowIso`.  On the first rejected fetch the loop stops with the error message;
database writes of earlier iterations persist.  `fetch` models
`getEvents([calendarId], dateRange, options)`. -/
def syncLoop (fetch : String → DateRange → GetEventsOptions → Except String (List CalendarEvent))
    (meta0 : List SyncMeta) (dateRange : DateRange) (nowIso : String) (now : Int)
    (db : DbState) : List String → DbState × Option String
  | [] => (db, none)
  | calendarId :: rest =>
    match fetch calendarId dateRange (optionsForCalendar meta0 calendarId) with
    | .error e => (db, some e)
    | .ok events =>
      syncLoop fetch meta0 dateRange nowIso now
        { db with
          events := putCachedEvents db.events calendarId events now
          syncMeta := setSyncMeta db.syncMeta calendarId nowIso } rest

/-- `runIncrementalSync` from `syncService.ts`.  When offline it returns
immediately; otherwise it runs the calendar loop and, only on full success,
prunes the cache and resets the state to `idle`; on a mid-loop failure it
records the error message and the `error` status, leaving the database as the
partially-run loop left it. -/
def runIncrementalSync (online : Bool)
    (fetch : String → DateRange → GetEventsOptions → Except String (List CalendarEvent))
    (toIso : Int → String) (now : Int)
    (st : SyncStateM) (db : DbState) (calendarIds : List String) : SyncStateM × DbState :=
  if online = false then (st, db) else
  let st1 : SyncStateM := { st with status := .syncing, lastError := none }
  match syncLoop fetch db.syncMeta (syncDateRange toIso now) (toIso now) now db calendarIds with
  | (db1, none) =>
    ({ st1 with status := .idle, lastError := none, lastSyncAt := some now,
                cacheTimestamp := some now },
     { db1 with events := pruneEventsOutsideWindow toIso now db1.events })
  | (db1, some e) =>
    ({ st1 with status := .error, lastError := some e }, db1)

/-- `createEventWithSync` from `syncService.ts`.  `tempId` models the
generated `pending-...` id, `nextId`/`now` the auto-increment id and
`Date.now()` used by `addPendingMutation`.  Returns the new in-memory state,
the new database and the value resolved to the caller (`null` on an online
failure). -/
def createEventWithSync (online : Bool) (api : RemoteApi) (now : Int)
    (tempId : String) (nextId : Nat) (st : SyncStateM) (db : DbState)
    (calendarId : String) (event : NewEventInput) :
    SyncStateM × DbState × Option CalendarEvent :=
  if online then
    match api.createEvent calendarId (.createInput event) with
    | .ok created =>
      ({ st with cacheTimestamp := some now },
       { db with events := applyCachedEvent db.events calendarId created now },
       some created)
    | .error msg =>
      ({ st with lastError := some msg, status := .error }, db, none)
  else
    let optimistic : CalendarEvent :=
      { id := tempId
        summary := event.summary
        start := event.start
        «end» := event.«end»
        calendarId }
    (st,
     { db with
       pendingMutations :=
         addPendingMutation db.pendingMutations nextId now .create calendarId none
           (some tempId) (.createInput event)
       events := applyCachedEvent db.events calendarId optimistic now },
     some optimistic)

/-- `updateEventWithSync` from `syncService.ts`: online failure records the
error and resolves `null`; offline only enqueues (no optimistic merge). -/
def updateEventWithSync (online : Bool) (api : RemoteApi) (now : Int)
    (nextId : Nat) (st : SyncStateM) (db : DbState)
    (calendarId eventId : String) (patch : UpdateEventPatch) :
    SyncStateM × DbState × Option CalendarEvent :=
  if online then
    match api.updateEvent calendarId eventId (.updatePatch patch) with
    | .ok updated =>
      ({ st with cacheTimestamp := some now },
       { db with events := applyCachedEvent db.events calendarId updated now },
       some updated)
    | .error msg =>
      ({ st with lastError := some msg, status := .error }, db, none)
  else
    (st,
     { db with
       pendingMutations :=
         addPendingMutation db.pendingMutations nextId now .update calendarId
           (some eventId) none (.updatePatch patch) },
     none)

/-- `deleteEventWithSync` from `syncService.ts`: online failure records the
error and resolves `false`; offline enqueues and removes the row
optimistically. -/
def deleteEventWithSync (online : Bool) (api : RemoteApi) (now : Int)
    (nextId : Nat) (st : SyncStateM) (db : DbState)
    (calendarId eventId : String) : SyncStateM × DbState × Bool :=
  if online then
    match api.deleteEvent calendarId eventId with
    | .ok _ =>
      ({ st with cacheTimestamp := some now },
       { db with events := removeCachedEvent db.events calendarId eventId },
       true)
    | .error msg =>
      ({ st with lastError := some msg, status := .error }, db, false)
  else
    (st,
     { db with
       pendingMutations :=
         addPendingMutation db.pendingMutations nextId now .delete calendarId
           (some eventId) none .empty
       events := removeCachedEvent db.events calendarId eventId },
     true)

/-- The value `getCalendarsWithCache` resolves with. -/
structure GetCalendarsResult where
  calendars : List CalendarAccount
  fromCache : Bool
  cachedAt : Option Int
deriving DecidableEq

/-- The settled outcomes of each awaited operation during one invocation of
`getCalendarsWithCache`: the remote list call and the three local-store
operations (each IndexedDB promise may reject, per the storage-failure
semantics of the store). -/
structure CalendarsEnv where
  online : Bool
  getCalendarList : Except String (List CalendarAccount)
  setCachedCalendarList : Except String Unit
  getCachedCalendarList : Except String (Option (List CalendarAccount))
  getCalendarListCachedAt : Except String (Option Int)

/-- The `cached ?? []` / `cachedAt ? new Date(cachedAt) : null` fallback value
of the two cached-read branches. -/
def cachedCalendarsResult (cached : Option (List CalendarAccount))
    (cachedAt : Option Int) : GetCalendarsResult :=
  { calendars := cached.getD []
    fromCache := true
    cachedAt := match cachedAt with
                | some t => if t ≠ 0 then some t else none
                | none => none }

/-- `getCalendarsWithCache` from `syncService.ts`.  The `try` covers the
remote fetch and the cache write; its `catch` and the offline path read from
the local store with no surrounding `try`, so a rejection there propagates to
the caller (an `.error` result of this model). -/
def getCalendarsWithCache (env : CalendarsEnv) : Except String GetCalendarsResult :=
  if env.online then
    match (do
        let calendars ← env.getCalendarList
        let _ ← env.setCachedCalendarList
        pure calendars : Except String (List CalendarAccount)) with
    | .ok calendars => .ok { calendars, fromCache := false, cachedAt := none }
    | .error _ => do
      let cached ← env.getCachedCalendarList
      let cachedAt ← env.getCalendarListCachedAt
      pure (cachedCalendarsResult cached cachedAt)
  else do
    let cached ← env.getCachedCalendarList
    let cachedAt ← env.getCalendarListCachedAt
    pure (cachedCalendarsResult cached cachedAt)

/-- The value `getEventsWithCache` resolves with (`cacheTimestamp` as a
millisecond instant). -/
structure GetEventsResult where
  events : List CalendarEvent
  fromCache : Bool
  cacheTimestamp : Option Int
deriving DecidableEq

/-- The settled outcomes of each awaited operation during one invocation of
`getEventsWithCache` for a fixed argument list: the remote `getEvents` call,
the cache writes of the `try` block (merged into one outcome each), and the
two local reads of the fallback path. -/
structure EventsEnv where
  online : Bool
  calendarIds : List String
  getEvents : Except String (List CalendarEvent)
  putCachedEvents : Except String Unit
  setSyncMeta : Except String Unit
  pruneEventsOutsideWindow : Except String Unit
  getCachedEventsInRange : Except String (List CalendarEvent)
  getAllSyncMeta : Except String (List SyncMeta)

/-- The fallback `cacheTimestamp` of `getEventsWithCache`: the maximum
`lastSyncAt` across the requested calendars (`Math.max` over
`new Date(d).getTime()`), or `null` when none of them has ever synced.
`parseTime` abstracts `new Date(iso).getTime()`. -/
def latestSyncOf (parseTime : String → Int) (meta : List SyncMeta)
    (calendarIds : List String) : Option Int :=
  match calendarIds.filterMap (fun id => getSyncMeta meta id) with
  | [] => none
  | d :: ds => some (ds.foldl (fun acc x => max acc (parseTime x)) (parseTime d))

/-- `getEventsWithCache` from `syncService.ts`.  The `try` covers the remote
fetch, the per-calendar cache merges, the watermark writes and the prune; its
failure falls through to the cached read, which itself runs outside any
`try`, so a local-store rejection there propagates to the caller. -/
def getEventsWithCache (env : EventsEnv) (parseTime : String → Int) (now : Int) :
    Except String GetEventsResult :=
  if env.online then
    match (do
        let events ← env.getEvents
        let _ ← env.putCachedEvents
        let _ ← env.setSyncMeta
        let _ ← env.pruneEventsOutsideWindow
        pure events : Except String (List CalendarEvent)) with
    | .ok events => .ok { events, fromCache := false, cacheTimestamp := some now }
    | .error _ => do
      let cached ← env.getCachedEventsInRange
      let meta ← env.getAllSyncMeta
      pure { events := cached, fromCache := true,
             cacheTimestamp := latestSyncOf parseTime meta env.calendarIds }
  else do
    let cached ← env.getCachedEventsInRange
    let meta ← env.getAllSyncMeta
    pure { events := cached, fromCache := true,
           cacheTimestamp := latestSyncOf parseTime meta env.calendarIds }

/-! ## Concrete instances used by counterexamples and witnesses -/

/-- A raw events-list item as the server reports a deleted event under
`showDeleted`: a `cancelled` tombstone without `start`/`end`. -/
def c1Item : RawEventItem := { id := "e1", status := some "cancelled" }

/-- Remote outcomes for the C1 run: calendar `cal` reports the deleted event,
any other calendar fails with a network error. -/
def c1Fetch : String → DateRange → GetEventsOptions → Except String (List RawEventItem) :=
  fun cid _ _ => if cid = "cal" then .ok [c1Item] else .error "network error"

/-- The previously cached copy of the event the server has since deleted. -/
def c1OldEvent : CalendarEvent :=
  { id := "e1"
    summary := "Dentist"
    start := { dateTime := some "2025-03-10T10:00:00Z" }
    «end» := { dateTime := some "2025-03-10T11:00:00Z" }
    calendarId := "cal" }

/-- Database before the C1 incremental sync: the stale row and a watermark
for `cal` (so the sync requests `updatedMin`/`showDeleted`). -/
def c1Db : DbState :=
  { events := [mkCachedEvent "cal" c1OldEvent 0]
    syncMeta := [{ calendarId := "cal", lastSyncAt := "2025-01-01T00:00:00Z" }]
    pendingMutations := []
    calendarList := none }

/-- The idle initial in-memory sync state. -/
def idleState : SyncStateM :=
  { status := .idle, lastSyncAt := none, lastError := none, cacheTimestamp := none }

/-- A pending delete mutation whose target the server has already deleted. -/
def c2Mutation : PendingMutation :=
  { id := some 1
    type := .delete
    calendarId := "family"
    eventId := some "evt-1"
    payload := .empty
    createdAt := 0 }

/-- Remote outcomes for the C2 flush: the DELETE endpoint answers
404 Not Found. -/
def c2Api : RemoteApi :=
  { createEvent := fun _ _ => .error "unused"
    updateEvent := fun _ _ _ => .error "unused"
    deleteEvent := fun _ _ => apiDeleteEventResponse 404 "Not Found" }

/-- Database holding only the stuck delete mutation. -/
def c2Db : DbState :=
  { events := [], syncMeta := [], pendingMutations := [c2Mutation], calendarList := none }

/-- An event payload with no `start.dateTime` and no `start.date` but a real
end time. -/
def c10Event : CalendarEvent :=
  { id := "e10"
    summary := "no start"
    start := {}
    «end» := { dateTime := some "2025-06-01T10:00:00Z" }
    calendarId := "cal" }

/-- The cached row `putCachedEvents`/`applyCachedEvent` would build for
`c10Event`. -/
def c10Row : CachedEvent := mkCachedEvent "cal" c10Event 0

/-- A `getCalendarsWithCache` invocation while offline whose local-store read
rejects. -/
def c7Env : CalendarsEnv :=
  { online := false
    getCalendarList := .ok []
    setCachedCalendarList := .ok ()
    getCachedCalendarList := .error "storage unavailable"
    getCalendarListCachedAt := .ok none }

/-- Remote outcomes for the C6 witness: every mutation endpoint rejects. -/
def c6Api : RemoteApi :=
  { createEvent := fun _ _ => .error "Invalid event"
    updateEvent := fun _ _ _ => .error "Forbidden"
    deleteEvent := fun _ _ => .error "Backend error" }

/-- An empty database. -/
def emptyDb : DbState :=
  { events := [], syncMeta := [], pendingMutations := [], calendarList := none }

/-- The event the server confirms for the C5 witness create. -/
def c5Created : CalendarEvent :=
  { id := "srv-1"
    summary := "Dentist"
    start := { dateTime := some "2025-03-10T10:00:00Z" }
    «end» := { dateTime := some "2025-03-10T11:00:00Z" }
    calendarId := "cal" }

/-- The offline create input for the C5 witness. -/
def c5Input : NewEventInput :=
  { summary := "Dentist"
    start := { dateTime := some "2025-03-10T10:00:00Z" }
    «end» := { dateTime := some "2025-03-10T11:00:00Z" } }

/-- Remote outcomes for the C5 witness flush: the create endpoint confirms
with the server row. -/
def c5Api : RemoteApi :=
  { createEvent := fun _ _ => .ok c5Created
    updateEvent := fun _ _ _ => .error "unused"
    deleteEvent := fun _ _ => .error "unused" }

/-- A `getCalendarsWithCache` invocation while online whose remote call
fails but whose local store works. -/
def c7EnvOk : CalendarsEnv :=
  { online := true
    getCalendarList := .error "network down"
    setCachedCalendarList := .ok ()
    getCachedCalendarList := .ok (some [])
    getCalendarListCachedAt := .ok (some 42) }

/-- A `getEventsWithCache` invocation while offline with a working local
store. -/
def c7EventsEnvOk : EventsEnv :=
  { online := false
    calendarIds := ["cal"]
    getEvents := .error "network down"
    putCachedEvents := .ok ()
    setSyncMeta := .ok ()
    pruneEventsOutsideWindow := .ok ()
    getCachedEventsInRange := .ok []
    getAllSyncMeta := .ok [{ calendarId := "cal", lastSyncAt := "2025-01-01T00:00:00Z" }] }

/-- The queue component of one flush-loop iteration (the queue evolution of
`flushStep` does not depend on the event table). -/
def stepQ (api : RemoteApi) (q : List PendingMutation) (m : PendingMutation) :
    List PendingMutation :=
  if mutationSucceeds api m then
    match m.id with
    | some i => removePendingMutation q i
    | none => q
  else q

/-- Whether processing mutation `m` in the flush loop removes row `x` from
the queue. -/
def removesRow (api : RemoteApi) (m x : PendingMutation) : Bool :=
  mutationSucceeds api m &&
    (match m.id with
     | some i => decide (x.id = some i)
     | none => false)

/-- Three queued delete mutations, enqueued in order; the middle one targets
an event whose remote delete fails. -/
def c4Queue : List PendingMutation :=
  [{ id := some 1, type := .delete, calendarId := "family", eventId := some "a",
     payload := .empty, createdAt := 10 },
   { id := some 2, type := .delete, calendarId := "family", eventId := some "bad",
     payload := .empty, createdAt := 20 },
   { id := some 3, type := .delete, calendarId := "family", eventId := some "c",
     payload := .empty, createdAt := 30 }]

/-- Remote outcomes for the C4 witness: deleting `bad` fails, the rest
succeed. -/
def c4Api : RemoteApi :=
  { createEvent := fun _ _ => .error "unused"
    updateEvent := fun _ _ _ => .error "unused"
    deleteEvent := fun _ e => if e = "bad" then .error "boom" else .ok () }

/-- Database holding the C4 queue. -/
def c4Db : DbState :=
  { events := [], syncMeta := [], pendingMutations := c4Queue, calendarList := none }

/-- The event calendar `a` serves in the C8 witness sync. -/
def c8Event : CalendarEvent :=
  { id := "ea"
    summary := "Soccer"
    start := { date := some "2025-03-10" }
    «end» := { date := some "2025-03-11" }
    calendarId := "a" }

/-- Remote outcomes for the C8 witness pass: calendar `a` syncs fine, any
other calendar fails. -/
def c8Fetch : String → DateRange → GetEventsOptions → Except String (List CalendarEvent) :=
  fun cid _ _ => if cid = "a" then .ok [c8Event] else .error "boom"

/-- An event payload with neither start nor end fields. -/
def c10Empty : CalendarEvent :=
  { id := "e0", summary := "", start := {}, «end» := {}, calendarId := "cal" }

/-! ## Helper lemmas about the cache store -/

theorem exists_ok_of_isOk {ε α : Type} {e : Except ε α} (h : e.isOk = true) :
    ∃ v, e = .ok v := by
  cases e with
  | ok v => exact ⟨v, rfl⟩
  | error _ => simp [Except.isOk, Except.toBool] at h

theorem filter_keyPred_eraseEventRow (rows : List CachedEvent) (c i : String) :
    (eraseEventRow rows c i).filter (keyPred c i) = [] := by
  rw [eraseEventRow, List.filter_filter, List.filter_eq_nil_iff]
  intro r _
  cases h : keyPred c i r <;> simp [h]

theorem filter_keyPred_putEventRow_self (rows : List CachedEvent) (r0 : CachedEvent) :
    (putEventRow rows r0).filter (keyPred r0.calendarId r0.id) = [r0] := by
  rw [putEventRow, List.filter_append, filter_keyPred_eraseEventRow]
  simp [keyPred]

theorem filter_keyPred_putEventRow_ne (rows : List CachedEvent) (r0 : CachedEvent)
    (c i : String) (h : ¬(r0.calendarId = c ∧ r0.id = i)) :
    (putEventRow rows r0).filter (keyPred c i) = rows.filter (keyPred c i) := by
  rw [putEventRow, List.filter_append]
  have h1 : List.filter (keyPred c i) [r0] = [] := by
    simp only [List.filter, keyPred, decide_eq_true_eq]
    rw [decide_eq_false h]
  rw [h1, List.append_nil, eraseEventRow, List.filter_filter]
  apply List.filter_congr
  intro r _
  cases hk : keyPred c i r
  · simp
  · have hr : r.calendarId = c ∧ r.id = i := by
      have := hk
      simp only [keyPred, decide_eq_true_eq] at this
      exact this
    have hne : keyPred r0.calendarId r0.id r = false := by
      simp only [keyPred, decide_eq_false_iff_not]
      rintro ⟨ha, hb⟩
      exact h ⟨by rw [← ha, hr.1], by rw [← hb, hr.2]⟩
    simp [hne]

theorem filter_keyPred_nonempty_putEventRow (rows : List CachedEvent) (r0 : CachedEvent)
    (c i : String) (h : rows.filter (keyPred c i) ≠ []) :
    (putEventRow rows r0).filter (keyPred c i) ≠ [] := by
  by_cases hk : r0.calendarId = c ∧ r0.id = i
  · obtain ⟨h1, h2⟩ := hk
    subst h1; subst h2
    rw [filter_keyPred_putEventRow_self]
    simp
  · rw [filter_keyPred_putEventRow_ne rows r0 c i hk]
    exact h

theorem filter_keyPred_nonempty_putCachedEvents (c i : String) (evs : List CalendarEvent)
    (now : Int) (c' : String) :
    ∀ rows : List CachedEvent, rows.filter (keyPred c i) ≠ [] →
      (putCachedEvents rows c' evs now).filter (keyPred c i) ≠ [] := by
  induction evs with
  | nil => intro rows h; exact h
  | cons ev rest ih =>
    intro rows h
    exact ih (putEventRow rows (mkCachedEvent c' ev now))
      (filter_keyPred_nonempty_putEventRow rows (mkCachedEvent c' ev now) c i h)

theorem filter_keyPred_putCachedEvents_mem (c : String) (now : Int)
    (e : CalendarEvent) :
    ∀ (evs : List CalendarEvent) (rows : List CachedEvent), e ∈ evs →
      (putCachedEvents rows c evs now).filter (keyPred c e.id) ≠ [] := by
  intro evs
  induction evs with
  | nil => intro rows h; cases h
  | cons ev rest ih =>
    intro rows hmem
    rcases List.mem_cons.mp hmem with h | h
    · subst h
      show (putCachedEvents (putEventRow rows (mkCachedEvent c e now)) c rest now).filter
        (keyPred c e.id) ≠ []
      apply filter_keyPred_nonempty_putCachedEvents
      have : (putEventRow rows (mkCachedEvent c e now)).filter
          (keyPred (mkCachedEvent c e now).calendarId (mkCachedEvent c e now).id) =
          [mkCachedEvent c e now] := filter_keyPred_putEventRow_self rows (mkCachedEvent c e now)
      simp only [mkCachedEvent] at this
      rw [show keyPred c e.id = keyPred c (mkCachedEvent c e now).id from rfl]
      simp only [mkCachedEvent]
      rw [this]
      simp
    · exact ih (putEventRow rows (mkCachedEvent c ev now)) h

/-! ## C3: range-query correctness -/

/-- C3: for every cached-event table, requested calendar list and query range
`[a, b]`, `getCachedEventsInRange` returns a cached event `E` exactly when
some cached row holds `E` for one of the requested calendars and its
normalized interval overlaps the range: `startIso <= b` and `endIso >= a`
(JavaScript string comparison, as the source performs it). -/
theorem claim_C3_range_correctness (rows : List CachedEvent) (calendarIds : List String)
    (rangeStart rangeEnd : String) (E : CalendarEvent) :
    E ∈ getCachedEventsInRange rows calendarIds rangeStart rangeEnd ↔
      ∃ r ∈ rows, r.event = E ∧ r.calendarId ∈ calendarIds ∧
        jsLe r.startIso rangeEnd = true ∧ jsGe r.endIso rangeStart = true := by
  simp only [getCachedEventsInRange, List.mem_flatMap, List.mem_map, List.mem_filter,
    decide_eq_true_eq, Bool.and_eq_true]
  constructor
  · rintro ⟨cid, hcid, r, ⟨⟨⟨hr, hcal⟩, hle, hge⟩, hev⟩⟩
    exact ⟨r, hr, hev, hcal ▸ hcid, hle, hge⟩
  · rintro ⟨r, hr, hev, hcal, hle, hge⟩
    exact ⟨r.calendarId, hcal, r, ⟨⟨⟨hr, rfl⟩, hle, hge⟩, hev⟩⟩

/-! ## C9: pruning bound -/

/-- C9: after `pruneEventsOutsideWindow` runs at time `now` with the 45-day
retention radius `THREE_MONTHS_MS / 2`, no cached event remains whose
normalized start timestamp is earlier than the ISO rendering of
`now - radius` or later than that of `now + radius`. -/
theorem claim_C9_pruning_bound (toIso : Int → String) (now : Int)
    (rows : List CachedEvent) :
    ∀ r ∈ pruneEventsOutsideWindow toIso now rows,
      jsLt r.startIso (toIso (now - THREE_MONTHS_MS / 2)) = false ∧
      jsLt (toIso (now + THREE_MONTHS_MS / 2)) r.startIso = false := by
  intro r hr
  have h := (List.mem_filter.mp hr).2
  rw [Bool.not_eq_true', Bool.or_eq_false_iff] at h
  exact h

/-- Witness for C9 at a concrete table: a row inside the window survives
pruning and satisfies both bounds. -/
theorem claim_C9_pruning_bound_witness :
    jsLt (mkCachedEvent "cal" c1OldEvent 0).startIso
      ((fun t => if t < 0 then "2025-01-01" else "2025-12-31") (100 - THREE_MONTHS_MS / 2)) = false ∧
    jsLt ((fun t => if t < 0 then "2025-01-01" else "2025-12-31") (100 + THREE_MONTHS_MS / 2))
      (mkCachedEvent "cal" c1OldEvent 0).startIso = false :=
  claim_C9_pruning_bound (fun t => if t < 0 then "2025-01-01" else "2025-12-31") 100
    [mkCachedEvent "cal" c1OldEvent 0] (mkCachedEvent "cal" c1OldEvent 0) (by decide)

/-! ## C2: delete flush on a server-404 target -/

/-- C2 (code bug): flushing a queued delete whose remote DELETE answers
404 Not Found does not dequeue the mutation.  `apiRequest` throws for every
non-ok status, the flush `catch` keeps the mutation in the queue, so the
full queue survives the pass (and will be retried by every later flush),
contradicting the specified "not found is treated as success". -/
theorem claim_C2_delete_404_requeued :
    apiDeleteEventResponse 404 "Not Found" =
      .error "Calendar API error: 404 Not Found" ∧
    (flushPendingMutations c2Api 5 c2Db).1.pendingMutations = [c2Mutation] ∧
    (flushPendingMutations c2Api 5 c2Db).2 = [(c2Mutation, false)] := by
  refine ⟨rfl, ?_, ?_⟩ <;> rfl

/-! ## C6: online write failures are surfaced, not queued -/

/-- C6: for each write operation attempted while online whose remote call
rejects, the operation records the message in `lastError`, sets the `error`
status, returns the failure indicator (`none` for create/update, `false` for
delete), and leaves the whole database — in particular the pending-mutation
queue — unchanged. -/
theorem claim_C6_online_write_failure (api : RemoteApi) (now : Int) (tempId : String)
    (nextId : Nat) (st : SyncStateM) (db : DbState) (calendarId eventId : String)
    (event : NewEventInput) (patch : UpdateEventPatch) (msg1 msg2 msg3 : String)
    (h1 : api.createEvent calendarId (.createInput event) = .error msg1)
    (h2 : api.updateEvent calendarId eventId (.updatePatch patch) = .error msg2)
    (h3 : api.deleteEvent calendarId eventId = .error msg3) :
    createEventWithSync true api now tempId nextId st db calendarId event =
      ({ st with lastError := some msg1, status := .error }, db, none) ∧
    updateEventWithSync true api now nextId st db calendarId eventId patch =
      ({ st with lastError := some msg2, status := .error }, db, none) ∧
    deleteEventWithSync true api now nextId st db calendarId eventId =
      ({ st with lastError := some msg3, status := .error }, db, false) := by
  refine ⟨?_, ?_, ?_⟩ <;>
    simp [createEventWithSync, updateEventWithSync, deleteEventWithSync, h1, h2, h3]

/-- Witness for C6 on concrete failing endpoints. -/
theorem claim_C6_online_write_failure_witness :
    createEventWithSync true c6Api 0 "tmp" 0 idleState emptyDb "cal" c5Input =
      ({ idleState with lastError := some "Invalid event", status := .error }, emptyDb, none) ∧
    updateEventWithSync true c6Api 0 0 idleState emptyDb "cal" "e" {} =
      ({ idleState with lastError := some "Forbidden", status := .error }, emptyDb, none) ∧
    deleteEventWithSync true c6Api 0 0 idleState emptyDb "cal" "e" =
      ({ idleState with lastError := some "Backend error", status := .error }, emptyDb, false) :=
  claim_C6_online_write_failure c6Api 0 "tmp" 0 idleState emptyDb "cal" "e" c5Input {}
    "Invalid event" "Forbidden" "Backend error" rfl rfl rfl

/-! ## C5: offline create then successful flush leaves exactly one row -/

/-- C5: creating an event offline (which enqueues a create mutation carrying
a temp id and writes the optimistic row under that temp id) and then flushing
it successfully leaves exactly one cached row for the event: no row remains
under the temp id, the single row under the server id is the confirmed row,
and the queue is drained. -/
theorem claim_C5_offline_create_then_flush (api : RemoteApi) (st : SyncStateM) (db : DbState)
    (calendarId tempId : String) (event : NewEventInput) (nextId : Nat) (now1 now2 : Int)
    (created : CalendarEvent)
    (hq : db.pendingMutations = [])
    (hok : api.createEvent calendarId (.createInput event) = .ok created)
    (hne : created.id ≠ tempId) :
    ((flushPendingMutations api now2
        (createEventWithSync false api now1 tempId nextId st db calendarId event).2.1).1.events.filter
      (keyPred calendarId tempId) = []) ∧
    ((flushPendingMutations api now2
        (createEventWithSync false api now1 tempId nextId st db calendarId event).2.1).1.events.filter
      (keyPred calendarId created.id) = [mkCachedEvent calendarId created now2]) ∧
    (flushPendingMutations api now2
        (createEventWithSync false api now1 tempId nextId st db calendarId event).2.1).1.pendingMutations
      = [] := by
  have hflush :
      flushPendingMutations api now2
          (createEventWithSync false api now1 tempId nextId st db calendarId event).2.1 =
        ({ db with
            events := applyCachedEvent
              (removeCachedEvent (applyCachedEvent db.events calendarId
                { id := tempId, summary := event.summary, start := event.start,
                  «end» := event.«end», calendarId := calendarId } now1) calendarId tempId)
              calendarId created now2
            pendingMutations := [] },
         [(({ id := some nextId, type := .create, calendarId := calendarId, eventId := none,
              tempEventId := some tempId, payload := .createInput event,
              createdAt := now1 } : PendingMutation), true)]) := by
    simp [createEventWithSync, addPendingMutation, hq, flushPendingMutations,
      getPendingMutations, List.insertionSort, List.orderedInsert, flushStep, flushOne, hok,
      removePendingMutation]
  rw [hflush]
  refine ⟨?_, ?_, rfl⟩
  · rw [applyCachedEvent, filter_keyPred_putEventRow_ne]
    · exact filter_keyPred_eraseEventRow _ calendarId tempId
    · rintro ⟨-, hb⟩
      exact hne hb
  · exact filter_keyPred_putEventRow_self _ (mkCachedEvent calendarId created now2)

/-- Witness for C5: a concrete offline "Dentist" create flushed against a
server that confirms it under the id `srv-1`. -/
theorem claim_C5_offline_create_then_flush_witness :
    ((flushPendingMutations c5Api 7
        (createEventWithSync false c5Api 3 "pending-1-x" 1 idleState emptyDb "cal" c5Input).2.1).1.events.filter
      (keyPred "cal" "pending-1-x") = []) ∧
    ((flushPendingMutations c5Api 7
        (createEventWithSync false c5Api 3 "pending-1-x" 1 idleState emptyDb "cal" c5Input).2.1).1.events.filter
      (keyPred "cal" c5Created.id) = [mkCachedEvent "cal" c5Created 7]) ∧
    (flushPendingMutations c5Api 7
        (createEventWithSync false c5Api 3 "pending-1-x" 1 idleState emptyDb "cal" c5Input).2.1).1.pendingMutations
      = [] :=
  claim_C5_offline_create_then_flush c5Api idleState emptyDb "cal" "pending-1-x" c5Input 1 3 7
    c5Created rfl rfl (by decide)

/-! ## C7: cached reads and thrown errors -/

/-- C7 (counterexample to the claim as stated): an offline
`getCalendarsWithCache` call whose local-store read rejects propagates that
rejection to the caller instead of resolving — the claim's "never throws
regardless of remote or local failures" does not hold for local failures in
the fallback path. -/
theorem claim_C7_counterexample :
    getCalendarsWithCache c7Env = .error "storage unavailable" := rfl

/-- C7 (amended): both read operations always resolve — with a result plus
`fromCache`/cache-timestamp metadata — regardless of online status and of
remote failures, provided the local-store reads of the cached fallback path
succeed.  (The cache writes inside the `try` blocks may also fail freely:
those rejections are caught.) -/
theorem claim_C7_reads_resolve (env1 : CalendarsEnv) (env2 : EventsEnv)
    (parseTime : String → Int) (now : Int)
    (h1 : env1.getCachedCalendarList.isOk = true)
    (h2 : env1.getCalendarListCachedAt.isOk = true)
    (h3 : env2.getCachedEventsInRange.isOk = true)
    (h4 : env2.getAllSyncMeta.isOk = true) :
    (getCalendarsWithCache env1).isOk = true ∧
    (getEventsWithCache env2 parseTime now).isOk = true := by
  obtain ⟨cached1, hc1⟩ := exists_ok_of_isOk h1
  obtain ⟨at1, ha1⟩ := exists_ok_of_isOk h2
  obtain ⟨cached2, hc2⟩ := exists_ok_of_isOk h3
  obtain ⟨meta2, hm2⟩ := exists_ok_of_isOk h4
  constructor
  · unfold getCalendarsWithCache
    cases honline : env1.online
    · rw [hc1, ha1]
      rfl
    · cases hr : env1.getCalendarList with
      | ok v =>
        cases hw : env1.setCachedCalendarList with
        | ok u => rfl
        | error e => rw [hc1, ha1]; rfl
      | error e => rw [hc1, ha1]; rfl
  · unfold getEventsWithCache
    cases honline : env2.online
    · rw [hc2, hm2]
      rfl
    · cases hr : env2.getEvents with
      | ok v =>
        cases hw1 : env2.putCachedEvents with
        | ok u1 =>
          cases hw2 : env2.setSyncMeta with
          | ok u2 =>
            cases hw3 : env2.pruneEventsOutsideWindow with
            | ok u3 => rfl
            | error e => rw [hc2, hm2]; rfl
          | error e => rw [hc2, hm2]; rfl
        | error e => rw [hc2, hm2]; rfl
      | error e => rw [hc2, hm2]; rfl

/-- Witness for C7 (amended) on two concrete invocations: an online
calendars read whose remote call fails and an offline events read both
resolve. -/
theorem claim_C7_reads_resolve_witness :
    (getCalendarsWithCache c7EnvOk).isOk = true ∧
    (getEventsWithCache c7EventsEnvOk (fun _ => 1735686000000) 0).isOk = true :=
  claim_C7_reads_resolve c7EnvOk c7EventsEnvOk (fun _ => 1735686000000) 0 rfl rfl rfl rfl

/-! ## C4: FIFO flush of the mutation queue -/

theorem flushOne_snd (api : RemoteApi) (now : Int) (events : List CachedEvent)
    (m : PendingMutation) : (flushOne api now events m).2 = mutationSucceeds api m := by
  obtain ⟨mid, mtype, mcal, mev, mtemp, mpay, mcr⟩ := m
  cases mtype with
  | create =>
    cases h : api.createEvent mcal mpay <;>
      simp [flushOne, mutationSucceeds, h, Except.isOk, Except.toBool]
  | update =>
    cases mev with
    | none => rfl
    | some eid =>
      cases h : api.updateEvent mcal eid mpay <;>
        simp [flushOne, mutationSucceeds, h, Except.isOk, Except.toBool]
  | delete =>
    cases mev with
    | none => rfl
    | some eid =>
      cases h : api.deleteEvent mcal eid <;>
        simp [flushOne, mutationSucceeds, h, Except.isOk, Except.toBool]

theorem stepQ_foldl (api : RemoteApi) :
    ∀ (p q : List PendingMutation),
      List.foldl (stepQ api) q p =
        q.filter (fun x => !(p.any (fun m => removesRow api m x))) := by
  intro p
  induction p with
  | nil => intro q; simp
  | cons m p ih =>
    intro q
    rw [List.foldl_cons, ih]
    cases hs : mutationSucceeds api m
    · simp [stepQ, hs, removesRow]
    · cases hid : m.id with
      | none => simp [stepQ, hs, hid, removesRow]
      | some i =>
        simp only [stepQ, hs, hid, if_pos]
        rw [removePendingMutation, List.filter_filter]
        apply List.filter_congr
        intro x _
        simp [removesRow, hs, hid, decide_not, Bool.and_comm]

theorem flush_components (api : RemoteApi) (now : Int) :
    ∀ (p : List PendingMutation) (db : DbState) (tr : List (PendingMutation × Bool)),
      (p.foldl (flushStep api now) (db, tr)).1.pendingMutations =
        List.foldl (stepQ api) db.pendingMutations p ∧
      (p.foldl (flushStep api now) (db, tr)).2 =
        tr ++ p.map (fun m => (m, mutationSucceeds api m)) := by
  intro p
  induction p with
  | nil => intro db tr; simp
  | cons m p ih =>
    intro db tr
    have hsnd := flushOne_snd api now db.events m
    have hstep : flushStep api now (db, tr) m =
        ({ db with events := (flushOne api now db.events m).1,
                   pendingMutations := stepQ api db.pendingMutations m },
         tr ++ [(m, mutationSucceeds api m)]) := by
      cases hfo : flushOne api now db.events m with
      | mk ev1 ok =>
        rw [hfo] at hsnd
        simp only at hsnd
        subst hsnd
        simp [flushStep, hfo, stepQ]
    rw [List.foldl_cons, hstep]
    obtain ⟨h1, h2⟩ := ih { db with events := (flushOne api now db.events m).1,
                                    pendingMutations := stepQ api db.pendingMutations m }
      (tr ++ [(m, mutationSucceeds api m)])
    constructor
    · rw [h1, List.foldl_cons]
    · rw [h2]
      simp

/-- C4: when the queue's rows are in enqueue order (`createdAt` ordered,
primary keys increasing — what Dexie's `orderBy('createdAt')` recovers) and
carry distinct assigned ids, one flush pass attempts the mutations exactly in
enqueue order (the trace pairs each queued mutation, in order, with its
remote outcome), and the queue afterwards consists exactly of the failed
mutations in their original relative order: every mutation whose remote call
succeeded is dequeued and a failure at any position leaves the mutation in
place without blocking later dequeues. -/
theorem claim_C4_queue_fifo (api : RemoteApi) (now : Int) (db : DbState)
    (hsorted : List.Sorted mutLE db.pendingMutations)
    (hids : (db.pendingMutations.map (fun m => m.id)).Nodup)
    (hsome : ∀ m ∈ db.pendingMutations, m.id ≠ none) :
    (flushPendingMutations api now db).2 =
      db.pendingMutations.map (fun m => (m, mutationSucceeds api m)) ∧
    (flushPendingMutations api now db).2.map Prod.fst = db.pendingMutations ∧
    (flushPendingMutations api now db).1.pendingMutations =
      db.pendingMutations.filter (fun m => !mutationSucceeds api m) := by
  have hpend : getPendingMutations db.pendingMutations = db.pendingMutations :=
    List.Sorted.insertionSort_eq hsorted
  unfold flushPendingMutations
  rw [hpend]
  obtain ⟨hq, htr⟩ := flush_components api now db.pendingMutations db []
  refine ⟨?_, ?_, ?_⟩
  · rw [htr]; simp
  · rw [htr]; simp [Function.comp_def]
  · rw [hq, stepQ_foldl]
    apply List.filter_congr
    intro x hx
    have hAny : (db.pendingMutations.any (fun m => removesRow api m x)) =
        mutationSucceeds api x := by
      cases hs : mutationSucceeds api x
      · rw [List.any_eq_false]
        intro m hm
        rw [Bool.not_eq_true]
        cases hr : removesRow api m x
        · rfl
        · exfalso
          have hparts := hr
          rw [removesRow, Bool.and_eq_true] at hparts
          obtain ⟨hms, hmatch⟩ := hparts
          cases hid : m.id with
          | none => rw [hid] at hmatch; simp at hmatch
          | some i =>
            rw [hid] at hmatch
            simp only [decide_eq_true_eq] at hmatch
            have hmx : m = x := List.inj_on_of_nodup_map hids hm hx (by rw [hid, hmatch])
            rw [hmx] at hms
            rw [hms] at hs
            cases hs
      · rw [List.any_eq_true]
        refine ⟨x, hx, ?_⟩
        cases hid : x.id with
        | none => exact absurd hid (hsome x hx)
        | some i => simp [removesRow, hs, hid]
    rw [hAny]

/-- Witness for C4: three queued deletes, the middle one failing remotely;
the flush attempts all three in order and dequeues the first and third. -/
theorem claim_C4_queue_fifo_witness :
    (flushPendingMutations c4Api 0 c4Db).2 =
      c4Db.pendingMutations.map (fun m => (m, mutationSucceeds c4Api m)) ∧
    (flushPendingMutations c4Api 0 c4Db).2.map Prod.fst = c4Db.pendingMutations ∧
    (flushPendingMutations c4Api 0 c4Db).1.pendingMutations =
      c4Db.pendingMutations.filter (fun m => !mutationSucceeds c4Api m) :=
  claim_C4_queue_fifo c4Api 0 c4Db (by decide) (by decide) (by decide)

/-! ## C8: partial progress of a failing incremental sync pass -/

theorem find?_filter_ne (c c' : String) (h : c' ≠ c) :
    ∀ metas : List SyncMeta,
      ((metas.filter (fun m => decide (m.calendarId ≠ c))).find?
        (fun m => decide (m.calendarId = c'))) =
      metas.find? (fun m => decide (m.calendarId = c')) := by
  intro metas
  induction metas with
  | nil => rfl
  | cons a l ih =>
    rw [List.filter_cons]
    by_cases ha : a.calendarId = c
    · rw [if_neg (by simp [ha])]
      rw [List.find?_cons_of_neg _ (by simp [ha]; exact fun hh => h hh.symm)]
      exact ih
    · rw [if_pos (by simp [ha])]
      by_cases hp : a.calendarId = c'
      · rw [List.find?_cons_of_pos _ (by simp [hp]), List.find?_cons_of_pos _ (by simp [hp])]
      · rw [List.find?_cons_of_neg _ (by simp [hp]), List.find?_cons_of_neg _ (by simp [hp])]
        exact ih

theorem getSyncMeta_setSyncMeta (metas : List SyncMeta) (c t c' : String) :
    getSyncMeta (setSyncMeta metas c t) c' = if c' = c then some t else getSyncMeta metas c' := by
  rw [setSyncMeta, getSyncMeta, List.find?_append]
  by_cases h : c' = c
  · subst h
    have hleft : ((metas.filter (fun m => decide (m.calendarId ≠ c'))).find?
        (fun m => decide (m.calendarId = c'))) = none := by
      rw [List.find?_eq_none]
      intro x hx
      have hx2 := (List.mem_filter.mp hx).2
      simp only [decide_eq_true_eq] at hx2 ⊢
      exact hx2
    rw [hleft]
    simp
  · rw [find?_filter_ne c c' h metas]
    have hright : (List.find? (fun m => decide (m.calendarId = c'))
        [({ calendarId := c, lastSyncAt := t } : SyncMeta)]) = none := by
      simp
      exact fun hh => h hh.symm
    rw [hright, Option.or_none, if_neg h, getSyncMeta]

theorem syncLoop_meta_preserved (fetch : String → DateRange → GetEventsOptions →
      Except String (List CalendarEvent)) (meta0 : List SyncMeta) (dr : DateRange)
    (nowIso : String) (now : Int) (c : String) :
    ∀ (l : List String) (db : DbState), getSyncMeta db.syncMeta c = some nowIso →
      getSyncMeta (syncLoop fetch meta0 dr nowIso now db l).1.syncMeta c = some nowIso := by
  intro l
  induction l with
  | nil => intro db h; exact h
  | cons cid rest ih =>
    intro db h
    rw [syncLoop]
    cases hf : fetch cid dr (optionsForCalendar meta0 cid) with
    | error e => exact h
    | ok events =>
      apply ih
      show getSyncMeta (setSyncMeta db.syncMeta cid nowIso) c = some nowIso
      rw [getSyncMeta_setSyncMeta]
      by_cases hc : c = cid
      · rw [if_pos hc]
      · rw [if_neg hc]; exact h

theorem syncLoop_row_preserved (fetch : String → DateRange → GetEventsOptions →
      Except String (List CalendarEvent)) (meta0 : List SyncMeta) (dr : DateRange)
    (nowIso : String) (now : Int) (c i : String) :
    ∀ (l : List String) (db : DbState), db.events.filter (keyPred c i) ≠ [] →
      (syncLoop fetch meta0 dr nowIso now db l).1.events.filter (keyPred c i) ≠ [] := by
  intro l
  induction l with
  | nil => intro db h; exact h
  | cons cid rest ih =>
    intro db h
    rw [syncLoop]
    cases hf : fetch cid dr (optionsForCalendar meta0 cid) with
    | error e => exact h
    | ok events =>
      apply ih
      exact filter_keyPred_nonempty_putCachedEvents c i events now cid db.events h

theorem syncLoop_fail (fetch : String → DateRange → GetEventsOptions →
      Except String (List CalendarEvent)) (meta0 : List SyncMeta) (dr : DateRange)
    (nowIso : String) (now : Int) (bad : String) (rest : List String) (msg : String)
    (hbad : fetch bad dr (optionsForCalendar meta0 bad) = .error msg) :
    ∀ (pre : List String) (db : DbState),
      (∀ c ∈ pre, (fetch c dr (optionsForCalendar meta0 c)).isOk = true) →
      (syncLoop fetch meta0 dr nowIso now db (pre ++ bad :: rest)).2 = some msg ∧
      (∀ c ∈ pre,
        getSyncMeta (syncLoop fetch meta0 dr nowIso now db (pre ++ bad :: rest)).1.syncMeta c =
          some nowIso) ∧
      (∀ c ∈ pre, ∀ evs, fetch c dr (optionsForCalendar meta0 c) = .ok evs →
        ∀ e ∈ evs,
          (syncLoop fetch meta0 dr nowIso now db (pre ++ bad :: rest)).1.events.filter
            (keyPred c e.id) ≠ []) := by
  intro pre
  induction pre with
  | nil =>
    intro db _
    rw [List.nil_append, syncLoop, hbad]
    refine ⟨rfl, ?_, ?_⟩
    · intro c hc; cases hc
    · intro c hc; cases hc
  | cons c0 pre ih =>
    intro db hpre
    obtain ⟨evs0, hf0⟩ := exists_ok_of_isOk (hpre c0 (List.mem_cons_self c0 pre))
    rw [List.cons_append, syncLoop, hf0]
    obtain ⟨h1, h2, h3⟩ := ih
      { db with
        events := putCachedEvents db.events c0 evs0 now
        syncMeta := setSyncMeta db.syncMeta c0 nowIso }
      (fun c hc => hpre c (List.mem_cons_of_mem c0 hc))
    refine ⟨h1, ?_, ?_⟩
    · intro c hc
      rcases List.mem_cons.mp hc with hc0 | hcrest
      · subst hc0
        apply syncLoop_meta_preserved
        show getSyncMeta (setSyncMeta db.syncMeta c nowIso) c = some nowIso
        rw [getSyncMeta_setSyncMeta, if_pos rfl]
      · exact h2 c hcrest
    · intro c hc evs hfev e he
      rcases List.mem_cons.mp hc with hc0 | hcrest
      · subst hc0
        apply syncLoop_row_preserved
        have hevs : evs = evs0 := by
          have hh := hfev.symm.trans hf0
          injection hh
        rw [hevs] at he
        exact filter_keyPred_putCachedEvents_mem c now e evs0 db.events he
      · exact h3 c hcrest evs hfev e he

/-- C8: when an incremental sync pass over `pre ++ bad :: rest` fails at the
calendar `bad` after every calendar of `pre` fetched successfully, the pass
stops with `status = error` and `lastError` set to the failure message, and
every earlier calendar keeps its progress: its SyncMeta watermark stands at
the pass's `toIso now` and every event merged for it still has its cached
row — nothing is rolled back (the prune step is skipped entirely). -/
theorem claim_C8_partial_progress (fetch : String → DateRange → GetEventsOptions →
      Except String (List CalendarEvent)) (toIso : Int → String) (now : Int)
    (st : SyncStateM) (db : DbState) (pre : List String) (bad : String)
    (rest : List String) (msg : String)
    (hpre : ∀ c ∈ pre,
      (fetch c (syncDateRange toIso now) (optionsForCalendar db.syncMeta c)).isOk = true)
    (hbad : fetch bad (syncDateRange toIso now) (optionsForCalendar db.syncMeta bad) =
      .error msg) :
    (runIncrementalSync true fetch toIso now st db (pre ++ bad :: rest)).1.status = .error ∧
    (runIncrementalSync true fetch toIso now st db (pre ++ bad :: rest)).1.lastError =
      some msg ∧
    (∀ c ∈ pre,
      getSyncMeta (runIncrementalSync true fetch toIso now st db
        (pre ++ bad :: rest)).2.syncMeta c = some (toIso now)) ∧
    (∀ c ∈ pre, ∀ evs,
      fetch c (syncDateRange toIso now) (optionsForCalendar db.syncMeta c) = .ok evs →
      ∀ e ∈ evs,
        (runIncrementalSync true fetch toIso now st db
          (pre ++ bad :: rest)).2.events.filter (keyPred c e.id) ≠ []) := by
  obtain ⟨h1, h2, h3⟩ := syncLoop_fail fetch db.syncMeta (syncDateRange toIso now)
    (toIso now) now bad rest msg hbad pre db hpre
  rw [runIncrementalSync]
  cases hloop : syncLoop fetch db.syncMeta (syncDateRange toIso now) (toIso now) now db
      (pre ++ bad :: rest) with
  | mk db1 o =>
    rw [hloop] at h1 h2 h3
    simp only at h1
    subst h1
    simp only
    exact ⟨rfl, rfl, h2, h3⟩

/-- Witness for C8: a two-calendar pass where `a` syncs and `b` fails keeps
calendar `a`'s advanced watermark and its merged event while reporting the
error. -/
theorem claim_C8_partial_progress_witness :
    (runIncrementalSync true c8Fetch (fun _ => "T") 0 idleState emptyDb
      ["a", "b"]).1.status = .error ∧
    (runIncrementalSync true c8Fetch (fun _ => "T") 0 idleState emptyDb
      ["a", "b"]).1.lastError = some "boom" ∧
    getSyncMeta (runIncrementalSync true c8Fetch (fun _ => "T") 0 idleState emptyDb
      ["a", "b"]).2.syncMeta "a" = some "T" ∧
    (runIncrementalSync true c8Fetch (fun _ => "T") 0 idleState emptyDb
      ["a", "b"]).2.events.filter (keyPred "a" c8Event.id) ≠ [] := by
  have h := claim_C8_partial_progress c8Fetch (fun _ => "T") 0 idleState emptyDb
    ["a"] "b" [] "boom" (by intro c hc; rw [List.mem_singleton.mp hc]; rfl) rfl
  exact ⟨h.1, h.2.1, h.2.2.1 "a" (List.mem_cons_self "a" []),
    h.2.2.2 "a" (List.mem_cons_self "a" []) [c8Event] rfl
      c8Event (List.mem_cons_self c8Event [])⟩

/-! ## C1: server-reported deletions during incremental sync -/

theorem eventStartIso_mapEventItem_noStart (x : RawEventItem) (cal : String)
    (color : Option String) (h : x.start = none) :
    eventStartIso (mapEventItem x cal color) = "" := by
  simp [mapEventItem, eventStartIso, h]

theorem filter_keyPred_putCachedEvents_subset (c i : String) (now : Int) :
    ∀ (evs : List CalendarEvent) (rows : List CachedEvent),
      (∀ ev ∈ evs, ev.id = i → eventStartIso ev = "") →
      ∀ r ∈ (putCachedEvents rows c evs now).filter (keyPred c i),
        r ∈ rows.filter (keyPred c i) ∨ r.startIso = "" := by
  intro evs
  induction evs with
  | nil => intro rows _ r hr; exact Or.inl hr
  | cons ev rest ih =>
    intro rows hblank r hr
    have step := ih (putEventRow rows (mkCachedEvent c ev now))
      (fun x hx hxi => hblank x (List.mem_cons_of_mem ev hx) hxi) r hr
    rcases step with hmem | hblankr
    · rw [putEventRow, List.filter_append] at hmem
      rcases List.mem_append.mp hmem with hleft | hright
      · left
        obtain ⟨hin, hkey⟩ := List.mem_filter.mp hleft
        obtain ⟨hin2, _⟩ := List.mem_filter.mp hin
        exact List.mem_filter.mpr ⟨hin2, hkey⟩
      · right
        obtain ⟨hmem1, hkey⟩ := List.mem_filter.mp hright
        have hreq : r = mkCachedEvent c ev now := List.mem_singleton.mp hmem1
        subst hreq
        simp only [keyPred, decide_eq_true_eq] at hkey
        exact hblank ev (List.mem_cons_self ev rest) hkey.2
    · exact Or.inr hblankr

theorem filter_keyPred_putCachedEvents_blank (c i : String) (now : Int) :
    ∀ (evs : List CalendarEvent) (rows : List CachedEvent),
      (∃ ev ∈ evs, ev.id = i) →
      (∀ ev ∈ evs, ev.id = i → eventStartIso ev = "") →
      ∀ r ∈ (putCachedEvents rows c evs now).filter (keyPred c i), r.startIso = "" := by
  intro evs
  induction evs with
  | nil =>
    intro rows hmem
    rcases hmem with ⟨ev, h, _⟩
    cases h
  | cons ev rest ih =>
    intro rows hmem hblank r hr
    by_cases hrest : ∃ x ∈ rest, x.id = i
    · exact ih (putEventRow rows (mkCachedEvent c ev now)) hrest
        (fun x hx hxi => hblank x (List.mem_cons_of_mem ev hx) hxi) r hr
    · have hevi : ev.id = i := by
        rcases hmem with ⟨x, hx, hxi⟩
        rcases List.mem_cons.mp hx with h | h
        · rw [← h]; exact hxi
        · exact absurd ⟨x, h, hxi⟩ hrest
      have step := filter_keyPred_putCachedEvents_subset c i now rest
        (putEventRow rows (mkCachedEvent c ev now))
        (fun x hx hxi => hblank x (List.mem_cons_of_mem ev hx) hxi) r hr
      rcases step with hmem1 | hb
      · have hself : (putEventRow rows (mkCachedEvent c ev now)).filter (keyPred c i) =
            [mkCachedEvent c ev now] := by
          have hs := filter_keyPred_putEventRow_self rows (mkCachedEvent c ev now)
          rw [show (mkCachedEvent c ev now).calendarId = c from rfl,
            show (mkCachedEvent c ev now).id = ev.id from rfl, hevi] at hs
          exact hs
        rw [hself] at hmem1
        have hreq : r = mkCachedEvent c ev now := List.mem_singleton.mp hmem1
        subst hreq
        exact hblank ev (List.mem_cons_self ev rest) hevi
      · exact hb

/-- C1 (counterexample to the claim as stated): during an incremental sync of
`cal` (which has a watermark, so `updatedMin`/`showDeleted` are requested),
an event the server reports as deleted — a `cancelled` item — is not applied
to the cache as a removal: `putCachedEvents` writes it back as a row, and in
a pass that then fails on a later calendar the prune step never runs, so
after the sync the cache still contains a row for the server-deleted event. -/
theorem claim_C1_counterexample :
    ((runIncrementalSync true (getEventsForCalendar c1Fetch (fun _ => none))
        (fun _ => "T") 100 idleState c1Db ["cal", "cal2"]).2.events.filter
      (keyPred "cal" "e1")).length = 1 ∧
    (runIncrementalSync true (getEventsForCalendar c1Fetch (fun _ => none))
      (fun _ => "T") 100 idleState c1Db ["cal", "cal2"]).1.status = .error := by
  constructor <;> rfl

/-- C1 (amended): in an incremental sync pass over `[cal]` that completes
successfully, a deleted event reported by the server (a `cancelled` item,
which carries no `start`) ends up with no cached row — but through the
end-of-pass prune deleting its empty-`startIso` row, not through a removal
applied per deleted item: the merge step itself writes the tombstone back as
a (transient, query-invisible) row. -/
theorem claim_C1_deleted_event_gone_after_successful_sync
    (fetchRaw : String → DateRange → GetEventsOptions → Except String (List RawEventItem))
    (color : String → Option String) (toIso : Int → String) (now : Int)
    (st : SyncStateM) (db : DbState) (cal u : String) (items : List RawEventItem)
    (it : RawEventItem)
    (hmeta : getSyncMeta db.syncMeta cal = some u)
    (hfetch : fetchRaw cal (syncDateRange toIso now)
      { updatedMin := some u, showDeleted := true } = .ok items)
    (hdel : it.status = some "cancelled")
    (hit : it ∈ items)
    (hnostart : ∀ x ∈ items, x.id = it.id → x.start = none)
    (hlow : jsLt "" (toIso (now - THREE_MONTHS_MS / 2)) = true) :
    (runIncrementalSync true (getEventsForCalendar fetchRaw color) toIso now st db
      [cal]).2.events.filter (keyPred cal it.id) = [] := by
  have hopts : optionsForCalendar db.syncMeta cal =
      { updatedMin := some u, showDeleted := true } := by
    rw [optionsForCalendar, hmeta]
  have hfetch2 : getEventsForCalendar fetchRaw color cal (syncDateRange toIso now)
      (optionsForCalendar db.syncMeta cal) =
      .ok (items.map (fun item => mapEventItem item cal (color cal))) := by
    rw [getEventsForCalendar, hopts, hfetch]
    rfl
  rw [runIncrementalSync, if_neg (by simp), syncLoop, hfetch2]
  simp only [syncLoop]
  rw [List.filter_eq_nil_iff]
  intro r hr
  rw [Bool.not_eq_true]
  by_contra hkeyne
  rw [Bool.not_eq_false] at hkeyne
  simp only [pruneEventsOutsideWindow] at hr
  obtain ⟨hrmem, hkeep⟩ := List.mem_filter.mp hr
  have hrblank : r.startIso = "" := by
    apply filter_keyPred_putCachedEvents_blank cal it.id now
      (items.map (fun item => mapEventItem item cal (color cal))) db.events
    · exact ⟨mapEventItem it cal (color cal), List.mem_map_of_mem _ hit, rfl⟩
    · intro ev hev hevid
      obtain ⟨x, hx, hxev⟩ := List.mem_map.mp hev
      rw [← hxev]
      apply eventStartIso_mapEventItem_noStart
      apply hnostart x hx
      rw [← hevid, ← hxev]
      exact rfl
    · exact List.mem_filter.mpr ⟨hrmem, hkeyne⟩
  rw [Bool.not_eq_true', Bool.or_eq_false_iff] at hkeep
  rw [hrblank] at hkeep
  rw [hkeep.1] at hlow
  cases hlow

/-- Witness for C1 (amended): the concrete cancelled tombstone for `e1`,
synced successfully over the single calendar `cal`, leaves no cached row. -/
theorem claim_C1_deleted_event_gone_witness :
    (runIncrementalSync true (getEventsForCalendar c1Fetch (fun _ => none))
      (fun _ => "T") 100 idleState c1Db ["cal"]).2.events.filter
      (keyPred "cal" c1Item.id) = [] :=
  claim_C1_deleted_event_gone_after_successful_sync c1Fetch (fun _ => none)
    (fun _ => "T") 100 idleState c1Db "cal" "2025-01-01T00:00:00Z" [c1Item] c1Item
    rfl rfl rfl (List.mem_cons_self c1Item [])
    (by intro x hx _; rw [List.mem_singleton.mp hx]; rfl) (by decide)

/-! ## C10: events normalized to an empty startIso -/

/-- C10 (counterexample to the claim as stated): an event payload with
neither `start.dateTime` nor `start.date` is cached with `startIso = ""`,
yet `getCachedEventsInRange` does return it for a query with a non-empty
`rangeStart` when the payload carries a real end time — the range filter
tests `endIso >= rangeStart`, and `startIso <= rangeEnd` holds trivially for
the empty string. -/
theorem claim_C10_counterexample :
    c10Event.start.dateTime = none ∧ c10Event.start.date = none ∧
    eventStartIso c10Event = "" ∧
    getCachedEventsInRange [c10Row] ["cal"] "2025-01-01T00:00:00Z"
      "2025-12-31T00:00:00Z" = [c10Event] := by
  refine ⟨rfl, rfl, rfl, rfl⟩

/-- C10 (amended): every event payload with neither `start.dateTime` nor
`start.date` — regardless of its end — is normalized to `startIso = ""` and
`pruneEventsOutsideWindow` always deletes its row (the window's lower bound
being a non-empty ISO string).  Only the "never returned by
`getCachedEventsInRange` for a non-empty `rangeStart`" part additionally
needs the end to be empty too (so `endIso = ""` — the case of the raw
tombstones the mapping defaults): the range filter tests
`endIso >= rangeStart`, not `startIso`. -/
theorem claim_C10_empty_start_events (ev : CalendarEvent) (rows : List CachedEvent)
    (ids : List String) (a b : String) (toIso : Int → String) (now : Int)
    (hwf : ∀ r ∈ rows, r.startIso = eventStartIso r.event ∧ r.endIso = eventEndIso r.event)
    (h1 : ev.start.dateTime = none) (h2 : ev.start.date = none)
    (ha : jsLt "" a = true)
    (hlow : jsLt "" (toIso (now - THREE_MONTHS_MS / 2)) = true) :
    eventStartIso ev = "" ∧
    (∀ r ∈ pruneEventsOutsideWindow toIso now rows, r.event ≠ ev) ∧
    (ev.«end».dateTime = none → ev.«end».date = none →
      ev ∉ getCachedEventsInRange rows ids a b) := by
  have hstart : eventStartIso ev = "" := by rw [eventStartIso, h1, h2]; rfl
  refine ⟨hstart, ?_, ?_⟩
  · intro r hr hrev
    simp only [pruneEventsOutsideWindow] at hr
    obtain ⟨hrmem, hkeep⟩ := List.mem_filter.mp hr
    have hrs : r.startIso = "" := by rw [(hwf r hrmem).1, hrev, hstart]
    rw [Bool.not_eq_true', Bool.or_eq_false_iff, hrs] at hkeep
    rw [hkeep.1] at hlow
    cases hlow
  · intro h3 h4 hmem
    have hend : eventEndIso ev = "" := by rw [eventEndIso, h3, h4]; rfl
    simp only [getCachedEventsInRange, List.mem_flatMap, List.mem_map, List.mem_filter,
      decide_eq_true_eq, Bool.and_eq_true] at hmem
    rcases hmem with ⟨cid, hcid, r, ⟨⟨⟨hrmem, hcal⟩, hle, hge⟩, hev⟩⟩
    have hends : r.endIso = "" := by rw [(hwf r hrmem).2, hev, hend]
    rw [hends] at hge
    simp [jsGe, ha] at hge

/-- Witness for C10 (amended): the empty-start event with a real end time
(`c10Event`) has `startIso = ""` and its row is pruned away (the surviving
row of the table holds a different event), and the fully-empty payload
`c10Empty` is never returned for a 2025 query range. -/
theorem claim_C10_empty_start_events_witness :
    eventStartIso c10Event = "" ∧
    (mkCachedEvent "cal" c1OldEvent 0).event ≠ c10Event ∧
    c10Empty ∉ getCachedEventsInRange [mkCachedEvent "cal" c10Empty 0] ["cal"]
      "2025-01-01T00:00:00Z" "2025-12-31T00:00:00Z" :=
  ⟨(claim_C10_empty_start_events c10Event [c10Row, mkCachedEvent "cal" c1OldEvent 0] ["cal"]
      "2025-01-01T00:00:00Z" "2025-12-31T00:00:00Z"
      (fun t => if t < 0 then "2025-01-01" else "2025-12-31") 100
      (by decide) rfl rfl (by decide) (by decide)).1,
   (claim_C10_empty_start_events c10Event [c10Row, mkCachedEvent "cal" c1OldEvent 0] ["cal"]
      "2025-01-01T00:00:00Z" "2025-12-31T00:00:00Z"
      (fun t => if t < 0 then "2025-01-01" else "2025-12-31") 100
      (by decide) rfl rfl (by decide) (by decide)).2.1
      (mkCachedEvent "cal" c1OldEvent 0) (by decide),
   (claim_C10_empty_start_events c10Empty [mkCachedEvent "cal" c10Empty 0] ["cal"]
      "2025-01-01T00:00:00Z" "2025-12-31T00:00:00Z" (fun _ => "T") 0
      (by decide) rfl rfl (by decide) (by decide)).2.2 rfl rfl⟩
